import Mathlib

/-!
Verification development for the readdwarf repository (src/elf.c and src/readdwarf.c).

The C code is shallowly embedded: machine integers become `Nat` (the few places where
C performs wrapping arithmetic are modelled with explicit `% 2^w`), the mapped file is
a structure exposing exactly the accesses the code performs, and fallible operations
return `Option` or an explicit result type.  The embedding targets the 64-bit ELF
layout used on the source's platform: `sizeof(Elf_Ehdr) = 64`, `sizeof(Elf_Shdr) = 64`,
`ELFCLASS = ELFCLASS64 = 2`, `ELF_TARG_VER = 1`, `ELFDATANUM = 3`.
-/

set_option maxRecDepth 4096

namespace Readdwarf

/-- Fields of the ELF executable header read by elf.c.  The `e_ident` bytes the code
consults are modelled as the four magic bytes plus the class, data and version
identifier bytes. -/
structure Elf_Ehdr where
  e_mag0 : Nat
  e_mag1 : Nat
  e_mag2 : Nat
  e_mag3 : Nat
  e_class : Nat
  e_data : Nat
  e_version : Nat
  e_ehsize : Nat
  e_shoff : Nat
  e_shentsize : Nat
  e_shnum : Nat
  e_shstrndx : Nat
  deriving DecidableEq

/-- Fields of an ELF section header read by elf.c. -/
structure Elf_Shdr where
  sh_name : Nat
  sh_type : Nat
  sh_offset : Nat
  sh_size : Nat
  sh_link : Nat
  sh_entsize : Nat
  deriving DecidableEq

/-- A mapped ELF file as accessed by elf.c: the executable header at the start of the
mapping, the total file size, the section header obtained by the cast
`(Elf_Shdr *)(p + eh->e_shoff + i * eh->e_shentsize)` for each index `i`, and the byte
of the mapping at each absolute offset (`p[k]`). -/
structure ElfFile where
  ehdr : Elf_Ehdr
  filesize : Nat
  shdrAt : Nat → Elf_Shdr
  byte : Nat → Nat

def ELFCLASS : Nat := 2
def ELF_TARG_VER : Nat := 1
def ELFDATANUM : Nat := 3
def SHT_SYMTAB : Nat := 2
def SHT_STRTAB : Nat := 3
def sizeof_Ehdr : Nat := 64
def sizeof_Shdr : Nat := 64

/-- The `IS_ELF` magic-number test: the first four identification bytes must be
`0x7f 'E' 'L' 'F'`. -/
def IS_ELF (eh : Elf_Ehdr) : Prop :=
  eh.e_mag0 = 0x7f ∧ eh.e_mag1 = 69 ∧ eh.e_mag2 = 76 ∧ eh.e_mag3 = 70

instance (eh : Elf_Ehdr) : Decidable (IS_ELF eh) := by
  unfold IS_ELF; infer_instance

/-- `iself` from elf.c: header validation.  Returns `true` (C `1`) when the file is
accepted, `false` (C `0`) when it is rejected; the checks appear in the source's
order. -/
def iself (eh : Elf_Ehdr) (filesize : Nat) : Bool :=
  if filesize < sizeof_Ehdr then false
  else if eh.e_ehsize < sizeof_Ehdr ∨ ¬ IS_ELF eh then false
  else if eh.e_class ≠ ELFCLASS then false
  else if eh.e_version ≠ ELF_TARG_VER then false
  else if eh.e_data ≥ ELFDATANUM then false
  else if eh.e_shoff > filesize then false
  else if eh.e_shentsize < sizeof_Shdr then false
  else if eh.e_shnum > (filesize - eh.e_shoff) / eh.e_shentsize then false
  else if eh.e_shstrndx ≥ eh.e_shnum then false
  else true

/-- `elf_getshstrtab` from elf.c: looks at the section header with index `e_shstrndx`,
checks it is a string table whose byte range lies inside the file, and returns the
start offset and size of the section-header string table (the C code returns
`p + sh_offset` and the size through out parameters and `0`; `none` models the
`return 1` failure paths). -/
def elf_getshstrtab (f : ElfFile) : Option (Nat × Nat) :=
  let sh := f.shdrAt f.ehdr.e_shstrndx
  if sh.sh_type ≠ SHT_STRTAB then none
  else if sh.sh_offset > f.filesize then none
  else if sh.sh_size > f.filesize - sh.sh_offset then none
  else some (sh.sh_offset, sh.sh_size)

/-- `strncmp(s1, s2, n) == 0` where `s1 i`, `s2 i` are the bytes of the two strings:
compare byte by byte starting at index `i`, stopping at the first mismatch, at a
common NUL byte, or after `n` bytes. -/
def strncmpZ (s1 s2 : Nat → Nat) : Nat → Nat → Bool
  | _, 0 => true
  | i, n + 1 =>
    if s1 i = s2 i then
      (if s1 i = 0 then true else strncmpZ s1 s2 (i + 1) n)
    else false

/-- The bytes of a C string literal. -/
def strBytes (s : String) : List Nat := s.toList.map Char.toNat

def DEBUG_ABBREV : String := ".debug_abbrev"
def DEBUG_INFO : String := ".debug_info"
def DEBUG_STR : String := ".debug_str"
def ELF_SYMTAB : String := ".symtab"

/-- The scan loop of `elf_getsection` (elf.c): `i` is the current section index and the
second argument the number of indices still to visit.  A section whose `sh_link` or
`sh_name` field is out of range is skipped; otherwise its name in the string table is
compared against `sname` with `strncmp(shstrtab + sh_name, sname, strlen(sname))`. -/
def elf_getsection_loop (f : ElfFile) (sname : List Nat) (stOff stSz : Nat) :
    Nat → Nat → Option (Nat × Nat)
  | _, 0 => none
  | i, rem + 1 =>
    let sh := f.shdrAt i
    if sh.sh_link ≥ f.ehdr.e_shnum ∨ sh.sh_name ≥ stSz then
      elf_getsection_loop f sname stOff stSz (i + 1) rem
    else if strncmpZ (fun k => f.byte (stOff + sh.sh_name + k))
        (fun k => sname.getD k 0) 0 sname.length then
      some (sh.sh_offset, sh.sh_size)
    else
      elf_getsection_loop f sname stOff stSz (i + 1) rem

/-- `elf_getsection` from elf.c: scans all `e_shnum` section headers; on a match
returns the section's recorded `sh_offset` and `sh_size` (the C `*sdata = p +
sh_offset; *ssize = sh_size; return 0`), `none` models `return 1`. -/
def elf_getsection (f : ElfFile) (sname : List Nat) (stOff stSz : Nat) :
    Option (Nat × Nat) :=
  elf_getsection_loop f sname stOff stSz 0 f.ehdr.e_shnum

/-- Result of `elf_getsymtab`.  `undef` marks the execution in which the C code
evaluates `sh->sh_size / sh->sh_entsize` with `sh_entsize = 0`: division by zero,
undefined behavior in C, so no defined result exists. -/
inductive SymtabResult
  | undef
  | notfound
  | found (symtabOff : Nat) (nsymb : Nat)
  deriving DecidableEq

/-- The scan loop of `elf_getsymtab` (elf.c): find the first `SHT_SYMTAB` section with
in-range `sh_link` and `sh_name` whose name matches `ELF_SYMTAB`, and return
`p + sh_offset` and `sh_size / sh_entsize`.  The source divides without checking
`sh_entsize`; `sh_entsize = 0` is modelled as `SymtabResult.undef`. -/
def elf_getsymtab_loop (f : ElfFile) (stOff stSz : Nat) : Nat → Nat → SymtabResult
  | _, 0 => .notfound
  | i, rem + 1 =>
    let sh := f.shdrAt i
    if sh.sh_type ≠ SHT_SYMTAB then
      elf_getsymtab_loop f stOff stSz (i + 1) rem
    else if sh.sh_link ≥ f.ehdr.e_shnum ∨ sh.sh_name ≥ stSz then
      elf_getsymtab_loop f stOff stSz (i + 1) rem
    else if strncmpZ (fun k => f.byte (stOff + sh.sh_name + k))
        (fun k => (strBytes ELF_SYMTAB).getD k 0) 0 (strBytes ELF_SYMTAB).length then
      (if sh.sh_entsize = 0 then .undef
       else .found sh.sh_offset (sh.sh_size / sh.sh_entsize))
    else
      elf_getsymtab_loop f stOff stSz (i + 1) rem

/-- `elf_getsymtab` from elf.c. -/
def elf_getsymtab (f : ElfFile) (stOff stSz : Nat) : SymtabResult :=
  elf_getsymtab_loop f stOff stSz 0 f.ehdr.e_shnum

/-- Section header `i` has its `sh_link` and `sh_name` fields in range (the condition
under which `elf_getsection` does not skip it). -/
def shdrOk (f : ElfFile) (stSz i : Nat) : Prop :=
  (f.shdrAt i).sh_link < f.ehdr.e_shnum ∧ (f.shdrAt i).sh_name < stSz

instance (f : ElfFile) (stSz i : Nat) : Decidable (shdrOk f stSz i) := by
  unfold shdrOk; infer_instance

/-- The string-table bytes at section `i`'s name offset start with the bytes of
`sname`. -/
def nameStartsWith (f : ElfFile) (stOff i : Nat) (sname : List Nat) : Prop :=
  ∀ k, k < sname.length → f.byte (stOff + (f.shdrAt i).sh_name + k) = sname.getD k 0

instance (f : ElfFile) (stOff i : Nat) (sname : List Nat) :
    Decidable (nameStartsWith f stOff i sname) := by
  unfold nameStartsWith; infer_instance

/-- Section `i`'s name in the string table is exactly `sname`: it starts with the
bytes of `sname` and the following byte is the NUL terminator. -/
def sectionNameEq (f : ElfFile) (stOff i : Nat) (sname : List Nat) : Prop :=
  nameStartsWith f stOff i sname ∧
  f.byte (stOff + (f.shdrAt i).sh_name + sname.length) = 0

instance (f : ElfFile) (stOff i : Nat) (sname : List Nat) :
    Decidable (sectionNameEq f stOff i sname) := by
  unfold sectionNameEq; infer_instance

/-- Section header `i` matches the query `sname` in `elf_getsection`'s scan: its
`sh_link`/`sh_name` fields are in range and its name starts with `sname`. -/
def shdrMatch (f : ElfFile) (stOff stSz : Nat) (sname : List Nat) (i : Nat) : Prop :=
  shdrOk f stSz i ∧ nameStartsWith f stOff i sname

instance (f : ElfFile) (stOff stSz : Nat) (sname : List Nat) (i : Nat) :
    Decidable (shdrMatch f stOff stSz sname i) := by
  unfold shdrMatch; infer_instance

/-- The exact condition under which `elf_getsection`'s loop accepts section `i`:
its `sh_link`/`sh_name` fields are not skipped and the `strncmp` comparison against
`sname` succeeds. -/
def loopGood (f : ElfFile) (stOff stSz : Nat) (sname : List Nat) (i : Nat) : Prop :=
  ¬ ((f.shdrAt i).sh_link ≥ f.ehdr.e_shnum ∨ (f.shdrAt i).sh_name ≥ stSz) ∧
  strncmpZ (fun k => f.byte (stOff + (f.shdrAt i).sh_name + k))
    (fun k => sname.getD k 0) 0 sname.length = true

instance (f : ElfFile) (stOff stSz : Nat) (sname : List Nat) (i : Nat) :
    Decidable (loopGood f stOff stSz sname i) := by
  unfold loopGood; infer_instance

/-! ### DWARF data structures and the value/string decoders of readdwarf.c

The `dwattr`, `dwaval`, `dwdie` and `dwcu` structures are declared in dw.h, which is
not part of src/; their fields are modelled exactly as readdwarf.c accesses them.
The `DW_FORM`, `DW_AT` and `DW_INL` constants come from dwarf.h (also outside src/)
and carry the standard DWARF numeric values. -/

def DW_FORM_addr : Nat := 0x01
def DW_FORM_block2 : Nat := 0x03
def DW_FORM_block4 : Nat := 0x04
def DW_FORM_data2 : Nat := 0x05
def DW_FORM_data4 : Nat := 0x06
def DW_FORM_data8 : Nat := 0x07
def DW_FORM_string : Nat := 0x08
def DW_FORM_block : Nat := 0x09
def DW_FORM_block1 : Nat := 0x0a
def DW_FORM_data1 : Nat := 0x0b
def DW_FORM_flag : Nat := 0x0c
def DW_FORM_sdata : Nat := 0x0d
def DW_FORM_strp : Nat := 0x0e
def DW_FORM_udata : Nat := 0x0f
def DW_FORM_ref_addr : Nat := 0x10
def DW_FORM_ref1 : Nat := 0x11
def DW_FORM_ref2 : Nat := 0x12
def DW_FORM_ref4 : Nat := 0x13
def DW_FORM_ref8 : Nat := 0x14
def DW_FORM_ref_udata : Nat := 0x15
def DW_FORM_flag_present : Nat := 0x19

def DW_AT_sibling : Nat := 0x01
def DW_AT_location : Nat := 0x02
def DW_AT_name : Nat := 0x03
def DW_AT_byte_size : Nat := 0x0b
def DW_AT_stmt_list : Nat := 0x10
def DW_AT_low_pc : Nat := 0x11
def DW_AT_high_pc : Nat := 0x12
def DW_AT_language : Nat := 0x13
def DW_AT_comp_dir : Nat := 0x1b
def DW_AT_inline : Nat := 0x20
def DW_AT_producer : Nat := 0x25
def DW_AT_prototyped : Nat := 0x27
def DW_AT_upper_bound : Nat := 0x2f
def DW_AT_abstract_origin : Nat := 0x31
def DW_AT_data_member_location : Nat := 0x38
def DW_AT_decl_file : Nat := 0x3a
def DW_AT_decl_line : Nat := 0x3b
def DW_AT_declaration : Nat := 0x3c
def DW_AT_encoding : Nat := 0x3e
def DW_AT_external : Nat := 0x3f
def DW_AT_frame_base : Nat := 0x40
def DW_AT_type : Nat := 0x49
def DW_AT_ranges : Nat := 0x55
def DW_AT_call_file : Nat := 0x58
def DW_AT_call_line : Nat := 0x59

def DW_INL_not_inlined : Nat := 0
def DW_INL_inlined : Nat := 1
def DW_INL_declared_not_inlined : Nat := 2
def DW_INL_declared_inlined : Nat := 3

/-- `(uint64_t)-1`, the in-band sentinel that `dav2val` starts from. -/
def UINT64_MAX : Nat := 18446744073709551615

/-- An attribute spec (`struct dwattr`): the declared attribute and form codes. -/
structure Dwattr where
  dat_attr : Nat
  dat_form : Nat
  deriving DecidableEq

/-- A decoded attribute value (`struct dwaval`).  The C union of differently sized
members is modelled with one field per member that readdwarf.c reads; `dav_str` is
the byte address of the borrowed in-line string and `dav_buf_len` is `dav_buf.len`. -/
structure Dwaval where
  dav_dat : Dwattr
  dav_u8 : Nat
  dav_u16 : Nat
  dav_u32 : Nat
  dav_u64 : Nat
  dav_str : Nat
  dav_buf_len : Nat
  deriving DecidableEq

/-- A debugging information entry (`struct dwdie`) as read by `dump_cu`:
its level, offset, the code and tag of its abbreviation (`die_dab`), and its decoded
attribute values in order. -/
structure Dwdie where
  die_lvl : Nat
  die_offset : Nat
  die_dab_code : Nat
  die_dab_tag : Nat
  die_avals : List Dwaval
  deriving DecidableEq

/-- A compilation unit (`struct dwcu`) as read by `dump_cu`. -/
structure Dwcu where
  dcu_offset : Nat
  dcu_length : Nat
  dcu_version : Nat
  dcu_abbroff : Nat
  dcu_psize : Nat
  dcu_dies : List Dwdie
  deriving DecidableEq

/-- `dav2val` from readdwarf.c: decode an attribute value to a `uint64_t` according to
its form; `psz` is the address width handed down from the compilation unit.  `val`
starts as `(uint64_t)-1` and keeps that sentinel on the `default` branch. -/
def dav2val (dav : Dwaval) (psz : Nat) : Nat :=
  let form := dav.dav_dat.dat_form
  if form = DW_FORM_addr ∨ form = DW_FORM_ref_addr then
    (if psz = 4 then dav.dav_u32 else dav.dav_u64)
  else if form = DW_FORM_block1 ∨ form = DW_FORM_block2 ∨ form = DW_FORM_block4 ∨
      form = DW_FORM_block then
    dav.dav_buf_len
  else if form = DW_FORM_flag ∨ form = DW_FORM_data1 ∨ form = DW_FORM_ref1 then
    dav.dav_u8
  else if form = DW_FORM_data2 ∨ form = DW_FORM_ref2 then
    dav.dav_u16
  else if form = DW_FORM_data4 ∨ form = DW_FORM_ref4 then
    dav.dav_u32
  else if form = DW_FORM_data8 ∨ form = DW_FORM_ref8 then
    dav.dav_u64
  else if form = DW_FORM_strp then
    dav.dav_u32
  else if form = DW_FORM_flag_present then
    1
  else
    UINT64_MAX

/-- `dav2str` from readdwarf.c: produce the C string pointer for string-valued forms.
Pointers are byte addresses and `0` models `NULL` — both the initial `str = NULL` and
the zero-initialised global `dstrbuf` left untouched when `.debug_str` was absent.
For `DW_FORM_strp` the code computes `dstrbuf + dav->dav_u32` with no bounds check. -/
def dav2str (dstrbuf : Nat) (dav : Dwaval) : Nat :=
  let form := dav.dav_dat.dat_form
  if form = DW_FORM_string then dav.dav_str
  else if form = DW_FORM_strp then dstrbuf + dav.dav_u32
  else 0

/-- The static name table of `enc2name` (readdwarf.c). -/
def enc_name : List String := ["address", "boolean", "complex float", "float",
  "signed", "signed char", "unsigned", "unsigned char", "imaginary float",
  "packed decimal", "numeric string", "edited", "signed fixed", "unsigned fixed",
  "decimal float"]

/-- `enc2name` from readdwarf.c. -/
def enc2name (enc : Nat) : String :=
  if 0 < enc ∧ enc ≤ enc_name.length then enc_name.getD (enc - 1) ("invalid")
  else ("invalid")

/-- The static name table of `lang2name` (readdwarf.c). -/
def lang_name : List String := ["ANSI C", "C", "Ada83", "C++", "Cobol74", "Cobol85",
  "Fortran77", "Fortran90", "Pascal83", "Modula2", "Java", "C99", "Ada95",
  "Fortran95", "PLI", "ObjC", "ObjC++", "UPC", "D"]

/-- `lang2name` from readdwarf.c. -/
def lang2name (lang : Nat) : String :=
  if 0 < lang ∧ lang ≤ lang_name.length then lang_name.getD (lang - 1) ("invalid")
  else ("invalid")

/-- `inline2name` from readdwarf.c. -/
def inline2name (inl : Nat) : String :=
  if inl = DW_INL_not_inlined then ("not inlined")
  else if inl = DW_INL_inlined then ("inlined")
  else if inl = DW_INL_declared_not_inlined then ("declared as inlined and not inlined")
  else if inl = DW_INL_declared_inlined then ("declared as inline and inlined")
  else ("invalid")

/-- One attribute line printed by `dump_dav`, abstracted to the branch taken and the
values interpolated into the `printf` format.  `unknownForm` is the fallback line
`printf("%s: %llu\n", dw_form2name(form), form)` taken when the decoded value is the
`(uint64_t)-1` sentinel and no string was produced. -/
inductive DavLine
  | unknownForm (form : Nat)
  | strOut (p : Nat)
  | indirectStr (off : Nat) (p : Nat)
  | formNameOut (form : Nat)
  | uval (v : Nat)
  | inlineVal (v : Nat) (s : String)
  | hexVal (v : Nat)
  | langVal (v : Nat) (s : String)
  | encVal (v : Nat) (s : String)
  | byteBlock (v : Nat)
  | locList (v : Nat)
  | refVal (v : Nat)
  | unimplemented
  deriving DecidableEq

/-- `dump_dav` from readdwarf.c.  The `unsigned short` parameters of `inline2name`,
`lang2name` and `enc2name` truncate the `uint64_t` argument, hence `% 65536`; the
`val + offset` printed for reference attributes is 64-bit addition, hence the
`% 2^64`. -/
def dump_dav (dstrbuf : Nat) (dav : Dwaval) (psz offset : Nat) : DavLine :=
  let attr := dav.dav_dat.dat_attr
  let form := dav.dav_dat.dat_form
  let val := dav2val dav psz
  let str := dav2str dstrbuf dav
  if val = UINT64_MAX ∧ str = 0 then
    .unknownForm form
  else if attr = DW_AT_producer ∨ attr = DW_AT_name ∨ attr = DW_AT_comp_dir then
    (if form = DW_FORM_string then .strOut str
     else if form = DW_FORM_strp then .indirectStr val str
     else .formNameOut form)
  else if attr = DW_AT_byte_size ∨ attr = DW_AT_decl_file ∨ attr = DW_AT_decl_line ∨
      attr = DW_AT_upper_bound ∨ attr = DW_AT_prototyped ∨ attr = DW_AT_external ∨
      attr = DW_AT_declaration ∨ attr = DW_AT_call_file ∨ attr = DW_AT_call_line then
    .uval val
  else if attr = DW_AT_inline then
    .inlineVal val (inline2name (val % 65536))
  else if attr = DW_AT_stmt_list ∨ attr = DW_AT_low_pc ∨ attr = DW_AT_high_pc ∨
      attr = DW_AT_ranges then
    .hexVal val
  else if attr = DW_AT_language then
    .langVal val (lang2name (val % 65536))
  else if attr = DW_AT_encoding then
    .encVal val (enc2name (val % 65536))
  else if attr = DW_AT_location ∨ attr = DW_AT_frame_base ∨
      attr = DW_AT_data_member_location then
    (if form = DW_FORM_block1 ∨ form = DW_FORM_block2 ∨ form = DW_FORM_block4 ∨
        form = DW_FORM_block then .byteBlock val
     else if form = DW_FORM_data1 ∨ form = DW_FORM_data2 ∨ form = DW_FORM_data4 ∨
        form = DW_FORM_data8 then .locList val
     else .formNameOut form)
  else if attr = DW_AT_type ∨ attr = DW_AT_sibling ∨ attr = DW_AT_abstract_origin then
    .refVal ((val + offset) % 18446744073709551616)
  else
    .unimplemented

/-- The attribute lines printed by `dump_cu` (readdwarf.c): for every DIE of the unit
in order, one line per decoded attribute value, each produced by
`dump_dav(dav, dcu->dcu_psize, dcu->dcu_offset)` — the unit's own recorded address
width and start offset. -/
def dump_cu (dstrbuf : Nat) (dcu : Dwcu) : List DavLine :=
  dcu.dcu_dies.flatMap
    (fun die => die.die_avals.map
      (fun dav => dump_dav dstrbuf dav dcu.dcu_psize dcu.dcu_offset))

/-! ### The front end: dwarf_dump, dump and main (readdwarf.c) -/

def DUMP_ABBREV : Nat := 1
def DUMP_INFO : Nat := 2

/-- The `int` actually returned by `elf_getsection` (elf.c): `0` when a section was
found, `1` when not.  readdwarf.c declares the function as returning `ssize_t` and
compares this value against `-1`. -/
def elf_getsection_ret (f : ElfFile) (sname : List Nat) (stOff stSz : Nat) : Int :=
  if (elf_getsection f sname stOff stSz).isSome then 0 else 1

/-- Observable outcome of one `dwarf_dump` invocation: which "section not found"
warnings were issued, which dump blocks ran, how many compilation units `dump_cu` was
called on, and the function's return value. -/
structure DumpResult where
  warned_abbrev_missing : Bool
  warned_info_missing : Bool
  warned_str_missing : Bool
  abbrev_dump_run : Bool
  info_dump_run : Bool
  cus_dumped : Nat
  ret : Nat
  deriving DecidableEq

/-- `dwarf_dump` from readdwarf.c.  `cuParse` lists the successive outcomes of the
calls to `dw_cu_parse` (dw.c is not part of src/): `true` for a call returning `0`
(one compilation unit parsed, then dumped by `dump_cu`), `false` for the first call
returning nonzero — end of data or a stream error, indistinguishably — which ends the
`while` loop.  The loop's result is discarded and the function falls through to
`return 0`. -/
def dwarf_dump (f : ElfFile) (flags : Nat) (cuParse : List Bool) : DumpResult :=
  match elf_getshstrtab f with
  | none => ⟨false, false, false, false, false, 0, 1⟩
  | some (stOff, stSz) =>
    if elf_getsection_ret f (strBytes DEBUG_ABBREV) stOff stSz = -1 then
      ⟨true, false, false, false, false, 0, 1⟩
    else if elf_getsection_ret f (strBytes DEBUG_INFO) stOff stSz = -1 then
      ⟨false, true, false, false, false, 0, 1⟩
    else
      let wstr := elf_getsection_ret f (strBytes DEBUG_STR) stOff stSz = -1
      let abrun := flags &&& DUMP_ABBREV ≠ 0
      let irun := flags &&& DUMP_INFO ≠ 0
      ⟨false, false, decide wstr, decide abrun, decide irun,
        if irun then (cuParse.takeWhile (fun b => b)).length else 0, 0⟩

/-- One command-line file as seen by `dump` (readdwarf.c): either the open/fstat/size
checks failed (`openFail`, C returns `1`), or the file was mapped, giving its content
and the `dw_cu_parse` outcomes for its info section. -/
inductive FileInput
  | openFail
  | mapped (f : ElfFile) (cuParse : List Bool)

/-- `dump` from readdwarf.c: `1` on open failure, `1` when `iself` rejects the file,
otherwise the return value of `dwarf_dump`. -/
def dump (x : FileInput) (flags : Nat) : Nat :=
  match x with
  | .openFail => 1
  | .mapped f cuParse =>
    if iself f.ehdr f.filesize then (dwarf_dump f flags cuParse).ret else 1

/-- The exit status computed by `main` (readdwarf.c):
`error |= dump(filename, flags)` over every file in order. -/
def main_error (files : List FileInput) (flags : Nat) : Nat :=
  files.foldl (fun e x => e ||| dump x flags) 0

/-! ### Concrete test inputs -/

/-- A zeroed section header, returned for slots no embedded file defines. -/
def shZero : Elf_Shdr := ⟨0, 0, 0, 0, 0, 0⟩

/-- A 250-byte file's executable header that `iself` accepts: valid magic, class 2,
data 1, version 1, `e_ehsize = 64`, section table at offset 64 with 2 entries of 64
bytes, string-table index 0. -/
def ehdrStd : Elf_Ehdr := ⟨0x7f, 69, 76, 70, ELFCLASS, 1, ELF_TARG_VER, 64, 64, 64, 2, 0⟩

/-- The bytes `bs` placed at absolute offset `base` of a file, zero elsewhere. -/
def bytesAt (base : Nat) (bs : List Nat) : Nat → Nat :=
  fun k => if base ≤ k ∧ k < base + bs.length then bs.getD (k - base) 0 else 0

/-- String-table section header of `cfile1`: a `SHT_STRTAB` at offset 192, size 16,
whose own name offset 12 points at a NUL byte. -/
def sh_strtab1 : Elf_Shdr := ⟨12, SHT_STRTAB, 192, 16, 0, 0⟩

/-- A section named `.debug_info` whose recorded byte range (offset 1000, size 50)
lies entirely outside the 250-byte file. -/
def sh_info1 : Elf_Shdr := ⟨0, 1, 1000, 50, 0, 0⟩

/-- A 250-byte file accepted by `iself`, with a valid section-header string table
containing `".debug_info\x00"` at offset 192, and a `.debug_info` section whose
header claims offset 1000 and size 50 — beyond the end of the file. -/
def cfile1 : ElfFile :=
  { ehdr := ehdrStd
    filesize := 250
    shdrAt := fun i => if i = 0 then sh_strtab1 else if i = 1 then sh_info1 else shZero
    byte := bytesAt 192 (strBytes DEBUG_INFO ++ [0, 0, 0, 0, 0]) }

/-- A section whose name offset points at the string `".debug_strX"`. -/
def sh_strX : Elf_Shdr := ⟨0, 1, 100, 10, 0, 0⟩

/-- A 250-byte file accepted by `iself` whose only named section is called
`.debug_strX` — the query `.debug_str` is a proper prefix of its name. -/
def cfile5 : ElfFile :=
  { ehdr := ehdrStd
    filesize := 250
    shdrAt := fun i => if i = 0 then sh_strtab1 else if i = 1 then sh_strX else shZero
    byte := bytesAt 192 (strBytes (".debug_strX") ++ [0, 0, 0, 0, 0]) }

/-- String-table section header of `cfile8`: name offset 8 points at a NUL byte. -/
def sh_strtab8 : Elf_Shdr := ⟨8, SHT_STRTAB, 192, 16, 0, 0⟩

/-- A `SHT_SYMTAB` section named `.symtab` with `sh_entsize = 0`. -/
def sh_symtab8 : Elf_Shdr := ⟨0, SHT_SYMTAB, 100, 100, 0, 0⟩

/-- A 250-byte file accepted by `iself` whose `.symtab` section records
`sh_entsize = 0`: `elf_getsymtab` reaches `sh_size / sh_entsize` with a zero
divisor. -/
def cfile8 : ElfFile :=
  { ehdr := ehdrStd
    filesize := 250
    shdrAt := fun i => if i = 0 then sh_strtab8 else if i = 1 then sh_symtab8 else shZero
    byte := bytesAt 192 (strBytes ELF_SYMTAB ++ [0, 0, 0, 0, 0, 0, 0, 0, 0]) }

/-- A `DW_FORM_strp` attribute value whose stored string-table offset is 7. -/
def davStrp7 : Dwaval := ⟨⟨DW_AT_name, DW_FORM_strp⟩, 0, 0, 7, 0, 0, 0⟩

/-- A `DW_FORM_data8` attribute value whose eight stored bytes are all `0xFF`, so the
decoded value is `(uint64_t)-1`. -/
def davData8Max : Dwaval := ⟨⟨DW_AT_byte_size, DW_FORM_data8⟩, 0, 0, 0, UINT64_MAX, 0, 0⟩

/-- A `DW_FORM_addr` attribute value with distinct 32-bit and 64-bit stored fields. -/
def davAddr : Dwaval :=
  ⟨⟨DW_AT_low_pc, DW_FORM_addr⟩, 0, 0, 0x1234, 0x123456789a, 0, 0⟩

/-- A DIE holding the single address-form attribute `davAddr`. -/
def dieAddr : Dwdie := ⟨0, 11, 1, 0x11, [davAddr]⟩

/-- A compilation unit with recorded address width 4 containing `dieAddr`. -/
def dcuP4 : Dwcu := ⟨0, 100, 2, 0, 4, [dieAddr]⟩

/-! ### Helper lemmas -/

/-- Characterisation of `iself` returning 1: all nine checks of elf.c pass. -/
theorem iself_eq_true_iff (eh : Elf_Ehdr) (fs : Nat) :
    iself eh fs = true ↔
      (sizeof_Ehdr ≤ fs ∧ sizeof_Ehdr ≤ eh.e_ehsize ∧ IS_ELF eh ∧
       eh.e_class = ELFCLASS ∧ eh.e_version = ELF_TARG_VER ∧
       eh.e_data < ELFDATANUM ∧ eh.e_shoff ≤ fs ∧ sizeof_Shdr ≤ eh.e_shentsize ∧
       eh.e_shnum ≤ (fs - eh.e_shoff) / eh.e_shentsize ∧
       eh.e_shstrndx < eh.e_shnum) := by
  unfold iself
  split_ifs with h1 h2 h3 h4 h5 h6 h7 h8 h9
  · simp only [false_iff]; rintro ⟨ha, -⟩; omega
  · simp only [false_iff]; rintro ⟨-, hb, hc, -⟩
    rcases h2 with h2 | h2
    · omega
    · exact h2 hc
  · simp only [false_iff]; rintro ⟨-, -, -, hd, -⟩; exact h3 hd
  · simp only [false_iff]; rintro ⟨-, -, -, -, he, -⟩; exact h4 he
  · simp only [false_iff]; rintro ⟨-, -, -, -, -, hf, -⟩; omega
  · simp only [false_iff]; rintro ⟨-, -, -, -, -, -, hg, -⟩; omega
  · simp only [false_iff]; rintro ⟨-, -, -, -, -, -, -, hh, -⟩; omega
  · simp only [false_iff]; rintro ⟨-, -, -, -, -, -, -, -, hi, -⟩; omega
  · simp only [false_iff]; rintro ⟨-, -, -, -, -, -, -, -, -, hj⟩; omega
  · push_neg at h2
    simp only [true_iff]
    exact ⟨by omega, by omega, h2.2, by omega, by omega, by omega, by omega,
      by omega, by omega, by omega⟩

/-- `strncmp(s1, s2, n) == 0` is byte-for-byte equality on the compared range, given
that `s2` has no NUL byte there. -/
theorem strncmpZ_eq_true_iff (s1 s2 : Nat → Nat) :
    ∀ (n i : Nat), (∀ k, i ≤ k → k < i + n → s2 k ≠ 0) →
      (strncmpZ s1 s2 i n = true ↔ ∀ k, i ≤ k → k < i + n → s1 k = s2 k) := by
  intro n
  induction n with
  | zero =>
    intro i _
    simp only [strncmpZ, true_iff]
    intro k h1 h2; omega
  | succ m ih =>
    intro i hnz
    simp only [strncmpZ]
    by_cases h1 : s1 i = s2 i
    · have hz : ¬ s1 i = 0 := by
        rw [h1]; exact hnz i (Nat.le_refl i) (by omega)
      rw [if_pos h1, if_neg hz]
      rw [ih (i + 1) (fun k hk1 hk2 => hnz k (by omega) (by omega))]
      constructor
      · intro hall k hik hki
        rcases Nat.eq_or_lt_of_le hik with heq | hlt
        · rw [← heq]; exact h1
        · exact hall k hlt (by omega)
      · intro hall k hik hki
        exact hall k (by omega) (by omega)
    · rw [if_neg h1]
      constructor
      · intro hft
        exact absurd hft Bool.false_ne_true
      · intro hall
        exact absurd (hall i (Nat.le_refl i) (by omega)) h1

/-- The scan loop of `elf_getsection` returns nothing exactly when no section in the
remaining index range satisfies its acceptance condition. -/
theorem getsection_loop_none_iff (f : ElfFile) (sname : List Nat) (stOff stSz : Nat) :
    ∀ (rem i : Nat),
      (elf_getsection_loop f sname stOff stSz i rem = none ↔
        ∀ j, i ≤ j → j < i + rem → ¬ loopGood f stOff stSz sname j) := by
  intro rem
  induction rem with
  | zero =>
    intro i
    simp only [elf_getsection_loop, true_iff]
    intro j h1 h2; omega
  | succ m ih =>
    intro i
    simp only [elf_getsection_loop]
    split_ifs with hA hS
    · rw [ih (i + 1)]
      constructor
      · intro hall j hj1 hj2
        rcases Nat.eq_or_lt_of_le hj1 with heq | hlt
        · rw [← heq]; rintro ⟨hc, -⟩; exact hc hA
        · exact hall j hlt (by omega)
      · intro hall j hj1 hj2
        exact hall j (by omega) (by omega)
    · simp only [false_iff]
      intro hall
      exact hall i (Nat.le_refl i) (by omega) ⟨hA, hS⟩
    · rw [ih (i + 1)]
      constructor
      · intro hall j hj1 hj2
        rcases Nat.eq_or_lt_of_le hj1 with heq | hlt
        · rw [← heq]; rintro ⟨-, hc⟩; exact hS hc
        · exact hall j hlt (by omega)
      · intro hall j hj1 hj2
        exact hall j (by omega) (by omega)

/-- If `k` is the first accepted section at or after `i`, the scan loop returns `k`'s
recorded offset and size. -/
theorem getsection_loop_eq_some (f : ElfFile) (sname : List Nat) (stOff stSz : Nat) :
    ∀ (rem i k : Nat), i ≤ k → k < i + rem → loopGood f stOff stSz sname k →
      (∀ j, i ≤ j → j < k → ¬ loopGood f stOff stSz sname j) →
      elf_getsection_loop f sname stOff stSz i rem =
        some ((f.shdrAt k).sh_offset, (f.shdrAt k).sh_size) := by
  intro rem
  induction rem with
  | zero => intro i k h1 h2 _ _; omega
  | succ m ih =>
    intro i k h1 h2 hg hmin
    simp only [elf_getsection_loop]
    split_ifs with hA hS
    · have hik : ¬ i = k := by
        rintro rfl; exact hg.1 hA
      exact ih (i + 1) k (by omega) (by omega) hg (fun j hj1 hj2 => hmin j (by omega) hj2)
    · have hgi : loopGood f stOff stSz sname i := ⟨hA, hS⟩
      have hk : ¬ i < k := fun hik => hmin i (Nat.le_refl i) hik hgi
      have : k = i := by omega
      rw [this]
    · have hik : ¬ i = k := by
        rintro rfl; exact hS hg.2
      exact ih (i + 1) k (by omega) (by omega) hg (fun j hj1 hj2 => hmin j (by omega) hj2)

/-- Whatever the scan loop returns was read verbatim from some accepted section
header's `sh_offset` and `sh_size` fields. -/
theorem getsection_loop_some_inv (f : ElfFile) (sname : List Nat) (stOff stSz : Nat) :
    ∀ (rem i o s : Nat),
      elf_getsection_loop f sname stOff stSz i rem = some (o, s) →
      ∃ k, i ≤ k ∧ k < i + rem ∧ loopGood f stOff stSz sname k ∧
        o = (f.shdrAt k).sh_offset ∧ s = (f.shdrAt k).sh_size := by
  intro rem
  induction rem with
  | zero =>
    intro i o s h
    simp only [elf_getsection_loop] at h
    exact Option.noConfusion h
  | succ m ih =>
    intro i o s h
    simp only [elf_getsection_loop] at h
    split_ifs at h with hA hS
    · obtain ⟨k, hk1, hk2, hk3, hk4⟩ := ih (i + 1) o s h
      exact ⟨k, by omega, by omega, hk3, hk4⟩
    · simp only [Option.some.injEq, Prod.mk.injEq] at h
      exact ⟨i, Nat.le_refl i, by omega, ⟨hA, hS⟩, h.1.symm, h.2.symm⟩
    · obtain ⟨k, hk1, hk2, hk3, hk4⟩ := ih (i + 1) o s h
      exact ⟨k, by omega, by omega, hk3, hk4⟩

/-- For a NUL-free query string, the loop's acceptance condition is exactly
`shdrMatch`: in-range `sh_link`/`sh_name` and the section's name starting with the
query bytes. -/
theorem loopGood_iff_shdrMatch (f : ElfFile) (stOff stSz : Nat) (sname : List Nat)
    (hnz : ∀ k, k < sname.length → sname.getD k 0 ≠ 0) (i : Nat) :
    loopGood f stOff stSz sname i ↔ shdrMatch f stOff stSz sname i := by
  unfold loopGood shdrMatch shdrOk nameStartsWith
  rw [strncmpZ_eq_true_iff _ _ sname.length 0 (fun k _ hk => hnz k (by omega))]
  constructor
  · rintro ⟨hA, hS⟩
    exact ⟨⟨by omega, by omega⟩, fun k hk => hS k (by omega) (by omega)⟩
  · rintro ⟨⟨hA1, hA2⟩, hS⟩
    exact ⟨by omega, fun k _ hk => hS k (by omega)⟩

/-- A successful `elf_getshstrtab` returned a byte range contained in the file. -/
theorem getshstrtab_some_inv (f : ElfFile) (stOff stSz : Nat)
    (h : elf_getshstrtab f = some (stOff, stSz)) :
    stOff ≤ f.filesize ∧ stOff + stSz ≤ f.filesize := by
  simp only [elf_getshstrtab] at h
  split_ifs at h with h1 h2 h3
  all_goals first
    | exact Option.noConfusion h
    | (simp only [Option.some.injEq, Prod.mk.injEq] at h; omega)

/-- A natural number with a nonzero left operand has nonzero bitwise or. -/
theorem lor_ne_zero_left {e d : Nat} (h : e ≠ 0) : e ||| d ≠ 0 := by
  intro hz
  obtain ⟨i, hi⟩ := Nat.ne_zero_implies_bit_true h
  have hb : (e ||| d).testBit i = true := by
    simp [Nat.testBit_or, hi]
  rw [hz] at hb
  simp at hb

/-- A natural number with a nonzero right operand has nonzero bitwise or. -/
theorem lor_ne_zero_right {e d : Nat} (h : d ≠ 0) : e ||| d ≠ 0 := by
  rw [Nat.or_comm]; exact lor_ne_zero_left h

/-- Folding `|=` over a list keeps a nonzero accumulator nonzero and picks up any
nonzero element. -/
theorem foldl_lor_ne_zero {α : Type} (g : α → Nat) :
    ∀ (l : List α) (e : Nat), (e ≠ 0 ∨ ∃ x ∈ l, g x ≠ 0) →
      l.foldl (fun a y => a ||| g y) e ≠ 0 := by
  intro l
  induction l with
  | nil =>
    intro e h
    rcases h with h | ⟨x, hx, -⟩
    · simpa using h
    · simp at hx
  | cons hd tl ih =>
    intro e h
    simp only [List.foldl_cons]
    apply ih
    rcases h with h | ⟨x, hx, hgx⟩
    · exact Or.inl (lor_ne_zero_left h)
    · rcases List.mem_cons.mp hx with heq | hmem
      · rw [heq] at hgx
        exact Or.inl (lor_ne_zero_right hgx)
      · exact Or.inr ⟨x, hmem, hgx⟩

/-- Results of `elf_getsection` are `0` or `1`, never the `-1` that readdwarf.c
tests for. -/
theorem getsection_ret_ne_neg_one (f : ElfFile) (sname : List Nat) (stOff stSz : Nat) :
    elf_getsection_ret f sname stOff stSz ≠ -1 := by
  unfold elf_getsection_ret
  split_ifs <;> decide

/-! ### Claim theorems -/

/-- Claim C1 fails on the code: `cfile1` passes `iself` header validation and has a
valid section-header string table, yet the successful `.debug_info` lookup returns
offset 1000 and size 50 in a 250-byte file — a byte range not contained in the file,
returned without any validation. -/
theorem getsection_range_not_contained_cex :
    iself cfile1.ehdr cfile1.filesize = true ∧
    elf_getshstrtab cfile1 = some (192, 16) ∧
    elf_getsection cfile1 (strBytes DEBUG_INFO) 192 16 = some (1000, 50) ∧
    cfile1.filesize < 1000 + 50 := by decide

/-- Claim C1 amended: for accepted containers, `elf_getshstrtab` does return a byte
range contained in the file, but `elf_getsection` returns the matching section
header's recorded `sh_offset` and `sh_size` verbatim, with no validation against the
file size. -/
theorem getshstrtab_contained_getsection_raw (f : ElfFile) (sname : List Nat)
    (stOff stSz o s : Nat)
    (h1 : elf_getshstrtab f = some (stOff, stSz))
    (h2 : elf_getsection f sname stOff stSz = some (o, s)) :
    (stOff ≤ f.filesize ∧ stOff + stSz ≤ f.filesize) ∧
    ∃ i, i < f.ehdr.e_shnum ∧ (f.shdrAt i).sh_link < f.ehdr.e_shnum ∧
      (f.shdrAt i).sh_name < stSz ∧
      o = (f.shdrAt i).sh_offset ∧ s = (f.shdrAt i).sh_size := by
  refine ⟨getshstrtab_some_inv f stOff stSz h1, ?_⟩
  obtain ⟨k, hk0, hk1, hk2, hk3, hk4⟩ :=
    getsection_loop_some_inv f sname stOff stSz f.ehdr.e_shnum 0 o s h2
  have hA := hk2.1
  exact ⟨k, by omega, by omega, by omega, hk3, hk4⟩

/-- Witness for the amended claim C1 at the concrete file `cfile1`. -/
theorem getshstrtab_contained_getsection_raw_witness :
    ((192 : Nat) ≤ cfile1.filesize ∧ 192 + 16 ≤ cfile1.filesize) ∧
    ∃ i, i < cfile1.ehdr.e_shnum ∧ (cfile1.shdrAt i).sh_link < cfile1.ehdr.e_shnum ∧
      (cfile1.shdrAt i).sh_name < 16 ∧
      1000 = (cfile1.shdrAt i).sh_offset ∧ 50 = (cfile1.shdrAt i).sh_size :=
  getshstrtab_contained_getsection_raw cfile1 (strBytes DEBUG_INFO) 192 16 1000 50
    (by decide) (by decide)

/-- Claim C2 fails on the code: with the string section at base 1000 and length 4,
the `DW_FORM_strp` attribute with stored offset 7 is dereferenced to pointer 1007 —
at or past the section's end — and with the section absent (`dstrbuf` still `NULL`)
to `NULL + 7`; no validation of the offset exists. -/
theorem dav2str_out_of_range_cex :
    dav2str 1000 davStrp7 = 1007 ∧ ¬ (1007 < 1000 + 4) ∧ dav2str 0 davStrp7 = 7 := by
  decide

/-- Claim C2 amended: `dav2str` computes `dstrbuf + dav_u32` for `DW_FORM_strp`
unconditionally, so whenever the stored offset is at least the string section's
length, the produced pointer indexes at or past the section's end. -/
theorem dav2str_strp_unvalidated (dstrbuf dstrlen : Nat) (dav : Dwaval)
    (hf : dav.dav_dat.dat_form = DW_FORM_strp) :
    dav2str dstrbuf dav = dstrbuf + dav.dav_u32 ∧
    (dstrlen ≤ dav.dav_u32 → ¬ (dav2str dstrbuf dav < dstrbuf + dstrlen)) := by
  have hs : dav2str dstrbuf dav = dstrbuf + dav.dav_u32 := by
    simp only [dav2str, hf]
    rw [if_neg (by decide : ¬ DW_FORM_strp = DW_FORM_string)]
    simp
  refine ⟨hs, ?_⟩
  intro hle
  rw [hs]
  omega

/-- Witness for the amended claim C2 at the concrete attribute value `davStrp7`. -/
theorem dav2str_strp_unvalidated_witness :
    dav2str 1000 davStrp7 = 1000 + davStrp7.dav_u32 ∧
    (4 ≤ davStrp7.dav_u32 → ¬ (dav2str 1000 davStrp7 < 1000 + 4)) :=
  dav2str_strp_unvalidated 1000 4 davStrp7 (by decide)

/-- Claim C3's decode-failure clause fails on the code: for `cfile1` the single
`dw_cu_parse` call fails immediately (no compilation unit is dumped), yet
`dwarf_dump` returns 0 and the overall exit status is 0. -/
theorem decode_failure_exit_zero_cex :
    iself cfile1.ehdr cfile1.filesize = true ∧
    (dwarf_dump cfile1 255 [false]).cus_dumped = 0 ∧
    (dwarf_dump cfile1 255 [false]).ret = 0 ∧
    main_error [FileInput.mapped cfile1 [false]] 255 = 0 := by decide

/-- Claim C3 amended: the exit status is nonzero if any file fails to open, is
rejected by `iself`, or fails the section-header string-table lookup, and every file
in the list contributes regardless of other files' failures; but compilation-unit
parse failures never affect `dwarf_dump`'s return value, which is 0 whenever the
string-table lookup succeeds. -/
theorem exit_status_nonzero_amended (files : List FileInput) (flags : Nat)
    (x : FileInput) (f : ElfFile) (cuParse : List Bool) (st : Nat × Nat) :
    (x ∈ files → dump x flags ≠ 0 → main_error files flags ≠ 0) ∧
    dump FileInput.openFail flags = 1 ∧
    (iself f.ehdr f.filesize = false → dump (FileInput.mapped f cuParse) flags = 1) ∧
    (elf_getshstrtab f = none → dump (FileInput.mapped f cuParse) flags ≠ 0) ∧
    (elf_getshstrtab f = some st → (dwarf_dump f flags cuParse).ret = 0) := by
  obtain ⟨stO, stS⟩ := st
  refine ⟨?_, rfl, ?_, ?_, ?_⟩
  · intro hx hnz
    exact foldl_lor_ne_zero (fun y => dump y flags) files 0 (Or.inr ⟨x, hx, hnz⟩)
  · intro hnot
    simp only [dump, hnot]
    rfl
  · intro hnone
    simp only [dump]
    by_cases hc : iself f.ehdr f.filesize = true
    · rw [if_pos hc]
      simp only [dwarf_dump, hnone]
      decide
    · rw [if_neg hc]
      decide
  · intro hsome
    simp only [dwarf_dump, hsome]
    rw [if_neg (getsection_ret_ne_neg_one f (strBytes DEBUG_ABBREV) stO stS),
      if_neg (getsection_ret_ne_neg_one f (strBytes DEBUG_INFO) stO stS)]

/-- Witness for the amended claim C3: one failing-to-open file makes the exit status
nonzero, and a decode failure on `cfile1` leaves the return value 0. -/
theorem exit_status_nonzero_amended_witness :
    main_error [FileInput.openFail] 255 ≠ 0 ∧ (dwarf_dump cfile1 255 [false]).ret = 0 :=
  ⟨(exit_status_nonzero_amended [FileInput.openFail] 255 FileInput.openFail cfile1 []
      (192, 16)).1 (List.mem_singleton_self _) (by decide),
   (exit_status_nonzero_amended [] 255 FileInput.openFail cfile1 [false]
      (192, 16)).2.2.2.2 (by decide)⟩

/-- Claim C4 fails on the code: `cfile1` has no `.debug_abbrev` section, yet
`dwarf_dump` issues no warning, skips nothing — both requested dumps still run — and
returns 0, because `elf_getsection` signals not-found by returning 1 while
`dwarf_dump` compares its result against -1. -/
theorem missing_section_not_reported_cex :
    elf_getsection cfile1 (strBytes DEBUG_ABBREV) 192 16 = none ∧
    elf_getshstrtab cfile1 = some (192, 16) ∧
    (dwarf_dump cfile1 255 []).warned_abbrev_missing = false ∧
    (dwarf_dump cfile1 255 []).abbrev_dump_run = true ∧
    (dwarf_dump cfile1 255 []).info_dump_run = true ∧
    (dwarf_dump cfile1 255 []).ret = 0 := by decide

/-- Claim C4 amended: when `.debug_abbrev` or `.debug_info` is missing, no failure is
reported and no dump is skipped — the not-found value 1 never equals the -1 that
`dwarf_dump` tests, so every requested dump is still attempted and the return value
is 0. -/
theorem missing_section_never_detected (f : ElfFile) (flags : Nat)
    (cuParse : List Bool) (st : Nat × Nat) (h : elf_getshstrtab f = some st) :
    (dwarf_dump f flags cuParse).warned_abbrev_missing = false ∧
    (dwarf_dump f flags cuParse).warned_info_missing = false ∧
    (dwarf_dump f flags cuParse).warned_str_missing = false ∧
    (dwarf_dump f flags cuParse).ret = 0 ∧
    (flags &&& DUMP_ABBREV ≠ 0 → (dwarf_dump f flags cuParse).abbrev_dump_run = true) ∧
    (flags &&& DUMP_INFO ≠ 0 → (dwarf_dump f flags cuParse).info_dump_run = true) := by
  obtain ⟨stO, stS⟩ := st
  simp only [dwarf_dump, h]
  rw [if_neg (getsection_ret_ne_neg_one f (strBytes DEBUG_ABBREV) stO stS),
    if_neg (getsection_ret_ne_neg_one f (strBytes DEBUG_INFO) stO stS)]
  refine ⟨rfl, rfl, ?_, rfl, ?_, ?_⟩
  · exact decide_eq_false (getsection_ret_ne_neg_one f (strBytes DEBUG_STR) stO stS)
  · intro hf
    exact decide_eq_true hf
  · intro hf
    exact decide_eq_true hf

/-- Witness for the amended claim C4 at the concrete file `cfile1` (which lacks both
`.debug_abbrev` and `.debug_str`). -/
theorem missing_section_never_detected_witness :
    (dwarf_dump cfile1 255 []).warned_abbrev_missing = false ∧
    (dwarf_dump cfile1 255 []).warned_info_missing = false ∧
    (dwarf_dump cfile1 255 []).warned_str_missing = false ∧
    (dwarf_dump cfile1 255 []).ret = 0 ∧
    (255 &&& DUMP_ABBREV ≠ 0 → (dwarf_dump cfile1 255 []).abbrev_dump_run = true) ∧
    (255 &&& DUMP_INFO ≠ 0 → (dwarf_dump cfile1 255 []).info_dump_run = true) :=
  missing_section_never_detected cfile1 255 [] (192, 16) (by decide)

/-- Claim C5 fails on the code: in `cfile5` no section's name is exactly
`.debug_str` (section 0's name is empty, section 1's is `.debug_strX`), yet the
lookup returns section 1 — `strncmp(name, sname, strlen(sname))` accepts any section
whose name merely starts with the requested name. -/
theorem getsection_superstring_match_cex :
    (∀ i, i < cfile5.ehdr.e_shnum → ¬ sectionNameEq cfile5 192 i (strBytes DEBUG_STR)) ∧
    elf_getsection cfile5 (strBytes DEBUG_STR) 192 16 = some (100, 10) := by decide

/-- Claim C5 amended: for a NUL-free query, `elf_getsection` returns the first
section (in index order, among those with in-range `sh_link`/`sh_name` fields) whose
name in the string table starts with the requested name — exact equality is not
required — and signals not-found exactly when no such section exists. -/
theorem getsection_first_start_match (f : ElfFile) (stOff stSz : Nat)
    (sname : List Nat) (hnz : ∀ k, k < sname.length → sname.getD k 0 ≠ 0) :
    (elf_getsection f sname stOff stSz = none ↔
      ∀ i, i < f.ehdr.e_shnum → ¬ shdrMatch f stOff stSz sname i) ∧
    (∀ k, k < f.ehdr.e_shnum → shdrMatch f stOff stSz sname k →
      (∀ j, j < k → ¬ shdrMatch f stOff stSz sname j) →
      elf_getsection f sname stOff stSz =
        some ((f.shdrAt k).sh_offset, (f.shdrAt k).sh_size)) := by
  constructor
  · rw [elf_getsection, getsection_loop_none_iff]
    constructor
    · intro hall i h1
      rw [← loopGood_iff_shdrMatch f stOff stSz sname hnz i]
      exact hall i (by omega) (by omega)
    · intro hall j h1 h2
      rw [loopGood_iff_shdrMatch f stOff stSz sname hnz j]
      exact hall j (by omega)
  · intro k hk hmatch hmin
    rw [elf_getsection]
    apply getsection_loop_eq_some f sname stOff stSz f.ehdr.e_shnum 0 k (by omega)
      (by omega)
    · rw [loopGood_iff_shdrMatch f stOff stSz sname hnz k]
      exact hmatch
    · intro j hj1 hj2
      rw [loopGood_iff_shdrMatch f stOff stSz sname hnz j]
      exact hmin j hj2

/-- Witness for the amended claim C5: on `cfile5`, section 1 is the first match for
`.debug_str` and its recorded offset and size are returned. -/
theorem getsection_first_start_match_witness :
    elf_getsection cfile5 (strBytes DEBUG_STR) 192 16 =
      some ((cfile5.shdrAt 1).sh_offset, (cfile5.shdrAt 1).sh_size) :=
  (getsection_first_start_match cfile5 192 16 (strBytes DEBUG_STR) (by decide)).2 1
    (by decide) (by decide) (by decide)

/-- Claim C6: an address-sized attribute (`DW_FORM_addr` or `DW_FORM_ref_addr`) of a
DIE in a compilation unit decodes to the stored 32-bit value when the unit's recorded
address width is 4 and to the stored 64-bit value when it is 8, and `dump_cu` renders
the attribute with the unit's own `dcu_psize` — not a global default. -/
theorem dav2val_addr_unit_psize (dstrbuf : Nat) (dcu : Dwcu) (die : Dwdie)
    (dav : Dwaval) (hdie : die ∈ dcu.dcu_dies) (hdav : dav ∈ die.die_avals)
    (hform : dav.dav_dat.dat_form = DW_FORM_addr ∨
      dav.dav_dat.dat_form = DW_FORM_ref_addr) :
    (dcu.dcu_psize = 4 → dav2val dav dcu.dcu_psize = dav.dav_u32) ∧
    (dcu.dcu_psize = 8 → dav2val dav dcu.dcu_psize = dav.dav_u64) ∧
    dump_dav dstrbuf dav dcu.dcu_psize dcu.dcu_offset ∈ dump_cu dstrbuf dcu := by
  refine ⟨?_, ?_, ?_⟩
  · intro h4
    simp only [dav2val]
    rw [if_pos hform, h4, if_pos rfl]
  · intro h8
    simp only [dav2val]
    rw [if_pos hform, h8, if_neg (by decide : ¬ (8 : Nat) = 4)]
  · simp only [dump_cu, List.mem_flatMap]
    exact ⟨die, hdie, List.mem_map_of_mem _ hdav⟩

/-- Witness for claim C6 at the concrete unit `dcuP4` (address width 4). -/
theorem dav2val_addr_unit_psize_witness :
    dav2val davAddr dcuP4.dcu_psize = davAddr.dav_u32 ∧
    dump_dav 0 davAddr dcuP4.dcu_psize dcuP4.dcu_offset ∈ dump_cu 0 dcuP4 := by
  have h := dav2val_addr_unit_psize 0 dcuP4 dieAddr davAddr
    (List.mem_singleton_self _) (List.mem_singleton_self _) (Or.inl (by decide))
  exact ⟨h.1 rfl, h.2.2⟩

/-- Claim C7: `iself` returns 0 whenever the file is smaller than an ELF header, the
magic/class/data-encoding/version identifiers fail validation, the section-table
offset exceeds the file size, the entry size is below the minimum, the section count
makes the table extend past the file end, or the string-table index is not below the
section count; and when it returns 1, every section header slot
(`e_shoff + i * e_shentsize`, one entry of `e_shentsize` bytes, for every
`i < e_shnum`) lies within the file. -/
theorem iself_validates_header (eh : Elf_Ehdr) (fs : Nat) :
    (fs < sizeof_Ehdr → iself eh fs = false) ∧
    (¬ IS_ELF eh → iself eh fs = false) ∧
    (eh.e_class ≠ ELFCLASS → iself eh fs = false) ∧
    (eh.e_data ≥ ELFDATANUM → iself eh fs = false) ∧
    (eh.e_version ≠ ELF_TARG_VER → iself eh fs = false) ∧
    (eh.e_shoff > fs → iself eh fs = false) ∧
    (eh.e_shentsize < sizeof_Shdr → iself eh fs = false) ∧
    (eh.e_shoff + eh.e_shnum * eh.e_shentsize > fs → iself eh fs = false) ∧
    (eh.e_shstrndx ≥ eh.e_shnum → iself eh fs = false) ∧
    (iself eh fs = true → ∀ i, i < eh.e_shnum →
      eh.e_shoff + i * eh.e_shentsize + eh.e_shentsize ≤ fs) := by
  have hiff := iself_eq_true_iff eh fs
  have h64 : sizeof_Shdr = 64 := rfl
  refine ⟨?_, ?_, ?_, ?_, ?_, ?_, ?_, ?_, ?_, ?_⟩
  · intro h
    rw [Bool.eq_false_iff]
    intro ht
    have := (hiff.mp ht).1
    omega
  · intro h
    rw [Bool.eq_false_iff]
    intro ht
    exact h (hiff.mp ht).2.2.1
  · intro h
    rw [Bool.eq_false_iff]
    intro ht
    exact h (hiff.mp ht).2.2.2.1
  · intro h
    rw [Bool.eq_false_iff]
    intro ht
    have := (hiff.mp ht).2.2.2.2.2.1
    omega
  · intro h
    rw [Bool.eq_false_iff]
    intro ht
    exact h (hiff.mp ht).2.2.2.2.1
  · intro h
    rw [Bool.eq_false_iff]
    intro ht
    have := (hiff.mp ht).2.2.2.2.2.2.1
    omega
  · intro h
    rw [Bool.eq_false_iff]
    intro ht
    have := (hiff.mp ht).2.2.2.2.2.2.2.1
    omega
  · intro h
    rw [Bool.eq_false_iff]
    intro ht
    obtain ⟨-, -, -, -, -, -, hoff, hent, hdiv, -⟩ := hiff.mp ht
    have hpos : 0 < eh.e_shentsize := by omega
    have hmul := (Nat.le_div_iff_mul_le hpos).mp hdiv
    omega
  · intro h
    rw [Bool.eq_false_iff]
    intro ht
    have := (hiff.mp ht).2.2.2.2.2.2.2.2.2
    omega
  · intro ht i hi
    obtain ⟨-, -, -, -, -, -, hoff, hent, hdiv, -⟩ := hiff.mp ht
    have hpos : 0 < eh.e_shentsize := by omega
    have hmul := (Nat.le_div_iff_mul_le hpos).mp hdiv
    have hle : (i + 1) * eh.e_shentsize ≤ eh.e_shnum * eh.e_shentsize :=
      Nat.mul_le_mul (by omega) (Nat.le_refl eh.e_shentsize)
    have hsucc : (i + 1) * eh.e_shentsize = i * eh.e_shentsize + eh.e_shentsize :=
      Nat.succ_mul i eh.e_shentsize
    omega

/-- Witness for claim C7: a too-small file is rejected, and for the accepted header
`ehdrStd` slot 1 lies within the 250-byte file. -/
theorem iself_validates_header_witness :
    iself ehdrStd 63 = false ∧
    ehdrStd.e_shoff + 1 * ehdrStd.e_shentsize + ehdrStd.e_shentsize ≤ 250 :=
  ⟨(iself_validates_header ehdrStd 63).1 (by decide),
   (iself_validates_header ehdrStd 250).2.2.2.2.2.2.2.2.2 (by decide) 1 (by decide)⟩

/-- Claim C8 is contradicted by elf.c: `cfile8` passes header validation and carries
a well-formed `.symtab` section header that records `sh_entsize = 0`; `elf_getsymtab`
reaches the division `sh->sh_size / sh->sh_entsize` with a zero divisor — no
validation of the entry size exists anywhere on the path. -/
theorem getsymtab_division_by_zero :
    iself cfile8.ehdr cfile8.filesize = true ∧
    elf_getshstrtab cfile8 = some (192, 16) ∧
    (cfile8.shdrAt 1).sh_type = SHT_SYMTAB ∧
    (cfile8.shdrAt 1).sh_entsize = 0 ∧
    elf_getsymtab cfile8 192 16 = SymtabResult.undef := by decide

/-- Claim C9: `enc2name` maps codes 1..15 to its 15-entry table and everything else
(including 0) to "invalid"; `lang2name` does the same for codes 1..19; and
`inline2name` maps the four defined inline kinds (codes 0..3) to their names and
every other code to "invalid". -/
theorem name_table_lookups (c : Nat) :
    enc_name.length = 15 ∧ lang_name.length = 19 ∧
    (1 ≤ c → c ≤ 15 → enc2name c = enc_name.getD (c - 1) ("invalid")) ∧
    (c = 0 ∨ 15 < c → enc2name c = "invalid") ∧
    (1 ≤ c → c ≤ 19 → lang2name c = lang_name.getD (c - 1) ("invalid")) ∧
    (c = 0 ∨ 19 < c → lang2name c = "invalid") ∧
    (inline2name DW_INL_not_inlined = "not inlined" ∧
     inline2name DW_INL_inlined = "inlined" ∧
     inline2name DW_INL_declared_not_inlined = "declared as inlined and not inlined" ∧
     inline2name DW_INL_declared_inlined = "declared as inline and inlined") ∧
    (3 < c → inline2name c = "invalid") := by
  have hl : enc_name.length = 15 := rfl
  have hl2 : lang_name.length = 19 := rfl
  refine ⟨hl, hl2, ?_, ?_, ?_, ?_, ⟨rfl, rfl, rfl, rfl⟩, ?_⟩
  · intro h1 h2
    unfold enc2name
    rw [if_pos ⟨by omega, by omega⟩]
  · intro h
    unfold enc2name
    rw [if_neg (by rcases h with h | h <;> omega)]
  · intro h1 h2
    unfold lang2name
    rw [if_pos ⟨by omega, by omega⟩]
  · intro h
    unfold lang2name
    rw [if_neg (by rcases h with h | h <;> omega)]
  · intro h
    have i0 : DW_INL_not_inlined = 0 := rfl
    have i1 : DW_INL_inlined = 1 := rfl
    have i2 : DW_INL_declared_not_inlined = 2 := rfl
    have i3 : DW_INL_declared_inlined = 3 := rfl
    unfold inline2name
    rw [if_neg (by omega), if_neg (by omega), if_neg (by omega), if_neg (by omega)]

/-- Witness for claim C9 at in-range and out-of-range codes of all three tables. -/
theorem name_table_lookups_witness :
    enc2name 7 = enc_name.getD 6 ("invalid") ∧ enc2name 16 = "invalid" ∧
    lang2name 19 = lang_name.getD 18 ("invalid") ∧ lang2name 0 = "invalid" ∧
    inline2name 4 = "invalid" :=
  ⟨(name_table_lookups 7).2.2.1 (by omega) (by omega),
   (name_table_lookups 16).2.2.2.1 (Or.inr (by omega)),
   (name_table_lookups 19).2.2.2.2.1 (by omega) (by omega),
   (name_table_lookups 0).2.2.2.2.2.1 (Or.inl rfl),
   (name_table_lookups 4).2.2.2.2.2.2.2 (by omega)⟩

/-- Claim C10: when an attribute's form yields no string (neither `DW_FORM_string`
nor `DW_FORM_strp`) and its decoded value equals `(uint64_t)-1`, `dump_dav` prints
the unknown-form fallback line — the form's name and numeric code — instead of the
attribute's value. -/
theorem dump_dav_sentinel_fallback (dstrbuf : Nat) (dav : Dwaval) (psz offset : Nat)
    (h1 : dav.dav_dat.dat_form ≠ DW_FORM_string)
    (h2 : dav.dav_dat.dat_form ≠ DW_FORM_strp)
    (hval : dav2val dav psz = UINT64_MAX) :
    dump_dav dstrbuf dav psz offset = DavLine.unknownForm dav.dav_dat.dat_form := by
  have hstr : dav2str dstrbuf dav = 0 := by
    simp only [dav2str]
    rw [if_neg h1, if_neg h2]
  simp only [dump_dav]
  rw [if_pos ⟨hval, hstr⟩]

/-- Witness for claim C10: the `DW_FORM_data8` attribute whose stored bytes are all
`0xFF` is rendered as the unknown-form fallback line. -/
theorem dump_dav_sentinel_fallback_witness :
    dump_dav 0 davData8Max 4 0 = DavLine.unknownForm DW_FORM_data8 :=
  dump_dav_sentinel_fallback 0 davData8Max 4 0 (by decide) (by decide) (by decide)

end Readdwarf
